import Mathlib

/-!
# Verification of the Byte-Sized Business Boost data layer

A shallow embedding of the client-side data layer (`src/lib/data.ts`) and the
validation module (`validateReview` / `validateRating`) of the repository,
together with theorems settling the frozen claims C1–C10.

Modelling conventions:

* JavaScript numbers are modelled as exact rationals (`ℚ`); the special values
  `NaN`, `Infinity` and `-Infinity` that arise from unguarded divisions are
  modelled explicitly by the type `JsNum`.  Integer-valued counters
  (`redemptions`, `maxRedemptions`, `totalReviews`, `helpful`,
  `reviewsThisHour`, `priceLevel`) are modelled as `Int`, following the data
  model's description of them as integers.
* `Date` values and ISO timestamp strings are modelled by their epoch
  milliseconds (`Int`); `new Date(s) > now` becomes integer comparison, which
  is the JS behaviour for well-formed ISO strings.  The falsy empty-string
  `lastReviewTime` is modelled as `Option Int` with `none` for the unset case.
* `localStorage` is modelled as an explicit `StoreState` record threaded
  through the mutating operations; `JSON.parse(localStorage.getItem(k))`
  becomes projection of the corresponding field.
* JS strings are modelled as Lean `String`s and scanned as `List Char`
  (identical to UTF-16 semantics on the basic multilingual plane).
* `crypto.randomUUID()` and `new Date()` are nondeterministic inputs of the
  environment and become explicit parameters (`newId`, `now`).
-/

/-- A JavaScript number: either a finite value (an exact rational in this
model) or one of the three non-finite values produced by `0/0` and `x/0`. -/
inductive JsNum where
  | nan : JsNum
  | inf : JsNum
  | ninf : JsNum
  | fin : ℚ → JsNum
deriving DecidableEq, Repr

namespace JsNum

/-- JS division `a / b` on finite operands: `0/0 = NaN`, `x/0 = ±Infinity`. -/
def jsDiv (a b : ℚ) : JsNum :=
  if b = 0 then
    if a = 0 then nan else if a > 0 then inf else ninf
  else fin (a / b)

/-- `Math.round` (rounds half toward +∞); `Math.round(NaN) = NaN`,
`Math.round(±Infinity) = ±Infinity`. -/
def round : JsNum → JsNum
  | nan => nan
  | inf => inf
  | ninf => ninf
  | fin q => fin ((⌊q + 1/2⌋ : ℤ) : ℚ)

/-- `Math.round(x * 10) / 10` — rounding to one decimal as done throughout
`data.ts`. -/
def round10 : JsNum → JsNum
  | nan => nan
  | inf => inf
  | ninf => ninf
  | fin q => fin (((⌊q * 10 + 1/2⌋ : ℤ) : ℚ) / 10)

/-- JS `<` — false whenever an operand is `NaN`. -/
def lt : JsNum → JsNum → Bool
  | nan, _ => false
  | _, nan => false
  | inf, _ => false
  | ninf, ninf => false
  | ninf, _ => true
  | fin _, inf => true
  | fin _, ninf => false
  | fin a, fin b => decide (a < b)

/-- JS `>` . -/
def gt (a b : JsNum) : Bool := lt b a

end JsNum

/-- `Math.round(x * 10) / 10` on a plain rational (used where the divisor is
known to be non-zero, e.g. in `addReview`). -/
def roundTo1 (q : ℚ) : ℚ := ((⌊q * 10 + 1/2⌋ : ℤ) : ℚ) / 10

-- ===========================================================================
-- String scanning primitives (the regular expressions of `data.ts` and the
-- validation module, compiled by hand to decidable scans over `List Char`)
-- ===========================================================================

/-- Characters treated as line terminators by the regexp `.` metacharacter. -/
def isLineTerm (c : Char) : Bool :=
  c = '\n' || c = '\r' || c.toNat = 0x2028 || c.toNat = 0x2029

/-- Characters removed by JS `String.prototype.trim`. -/
def isJsSpace (c : Char) : Bool :=
  c = ' ' || c = '\t' || c = '\n' || c = '\r' ||
  c.toNat = 0xb || c.toNat = 0xc || c.toNat = 0xa0 ||
  c.toNat = 0x2028 || c.toNat = 0x2029 || c.toNat = 0xfeff

/-- JS `String.prototype.trim` (both ends). -/
def jsTrim (s : String) : String :=
  ⟨((s.data.dropWhile isJsSpace).reverse.dropWhile isJsSpace).reverse⟩

/-- Number of further characters at the head of the list matching `eq c`. -/
def runLen (eq : Char → Char → Bool) (c : Char) : List Char → Nat
  | [] => 0
  | d :: rest => if eq c d then runLen eq c rest + 1 else 0

/-- `/(.)\1{k-1,}/` : some position starts a run of at least `k` characters
all equal (under `eq`) to its first character, which `.` requires to not be a
line terminator.  `eq` is plain equality, or case-folded equality for the
`i` flag (backreferences canonicalize under `i`). -/
def hasRun (k : Nat) (eq : Char → Char → Bool) : List Char → Bool
  | [] => false
  | c :: rest => (!isLineTerm c && decide (runLen eq c rest + 1 ≥ k)) || hasRun k eq rest

/-- Case-folding equality used for the `i` regexp flag (ASCII-exact). -/
def foldEq (a b : Char) : Bool := a.toLower = b.toLower

/-- Substring containment on character lists. -/
def containsSub (needle : List Char) : List Char → Bool
  | [] => needle.isEmpty
  | c :: rest => needle.isPrefixOf (c :: rest) || containsSub needle rest

/-- Case-insensitive substring containment (for `/https?:\/\//i` etc.). -/
def containsCI (needle s : String) : Bool :=
  containsSub (needle.data.map Char.toLower) (s.data.map Char.toLower)

/-- `/<[^>]+>/` : a `<`, then at least one character other than `>`, then
a `>`. -/
def hasHtmlTag : List Char → Bool
  | [] => false
  | c :: rest =>
    (c = '<' && (let mid := rest.takeWhile (· ≠ '>');
                 !mid.isEmpty && decide (mid.length < rest.length)))
    || hasHtmlTag rest

/-- `String.prototype.replace(':', '')` — remove the first occurrence only. -/
def removeFirst (c : Char) : List Char → List Char
  | [] => []
  | d :: rest => if d = c then rest else d :: removeFirst c rest

/-- Decimal digit run to a natural number. -/
def digitsVal : List Char → Nat → Nat
  | [], acc => acc
  | c :: rest, acc => digitsVal rest (acc * 10 + (c.toNat - '0'.toNat))

/-- JS `parseInt` in base 10: skip whitespace, optional sign, then a leading
run of decimal digits; `none` models `NaN` (no digits at all). -/
def jsParseInt (s : String) : Option Int :=
  let t := s.data.dropWhile isJsSpace
  let (neg, t) : Bool × List Char :=
    match t with
    | '-' :: rest => (true, rest)
    | '+' :: rest => (false, rest)
    | _ => (false, t)
  let digits := t.takeWhile (fun c => '0' ≤ c && c ≤ '9')
  if digits.isEmpty then none
  else some (if neg then -(digitsVal digits 0 : Int) else (digitsVal digits 0 : Int))

-- ===========================================================================
-- Validation module (`validateReview`, `validateRating`)
-- ===========================================================================

/-- Result shape `{isValid, message}` of every validator. -/
structure ValidationResult where
  isValid : Bool
  message : String
deriving DecidableEq, Repr

/-- `validateReview` from the validation module, line for line:
required → length ∈ [10,500] → 6+ repeated characters → URL (`http(s)://` or
`www.`) → HTML tag → caps ratio > 0.7 for length > 20. -/
def validateReview (review : String) : ValidationResult :=
  if review = "" || jsTrim review = "" then
    ⟨false, "Review text is required"⟩
  else
    let trimmed := jsTrim review
    if trimmed.length < 10 then
      ⟨false, "Review must be at least 10 characters long"⟩
    else if trimmed.length > 500 then
      let n := trimmed.length
      ⟨false, s!"Review must be 500 characters or less (currently {n})"⟩
    else if hasRun 6 (fun a b => a = b) trimmed.data then
      ⟨false, "Review contains too many repeated characters"⟩
    else if containsCI "http://" trimmed || containsCI "https://" trimmed ||
            containsCI "www." trimmed then
      ⟨false, "Reviews cannot contain URLs or links"⟩
    else if hasHtmlTag trimmed.data then
      ⟨false, "Reviews cannot contain HTML code"⟩
    else
      let caps := (trimmed.data.filter (fun c => 'A' ≤ c && c ≤ 'Z')).length
      if ((caps : ℚ) / (trimmed.length : ℚ) > 7/10) && trimmed.length > 20 then
        ⟨false, "Please avoid using excessive capital letters"⟩
      else
        ⟨true, "Valid review"⟩

/-- A raw JS value passed to `validateRating`: `undefined`, `null`, or a
number. -/
inductive RatingInput where
  | undef : RatingInput
  | nullV : RatingInput
  | num : JsNum → RatingInput
deriving DecidableEq, Repr

/-- `(x * 2) % 1 !== 0` — true iff doubling does not land on an integer
(`NaN % 1` is `NaN`, and `NaN !== 0` holds, but those operands are already
rejected by the earlier range checks). -/
def notHalfStep : JsNum → Bool
  | JsNum.fin q => decide ((2 * q).den ≠ 1)
  | _ => true

/-- `validateRating` from the validation module: null/undefined check, NaN
check, range `[0.5, 5]`, half-star granularity. -/
def validateRating (rating : RatingInput) : ValidationResult :=
  match rating with
  | RatingInput.undef => ⟨false, "Please select a rating"⟩
  | RatingInput.nullV => ⟨false, "Please select a rating"⟩
  | RatingInput.num r =>
    if r = JsNum.nan then ⟨false, "Rating must be a number"⟩
    else if JsNum.lt r (JsNum.fin (1/2)) then
      ⟨false, "Rating must be at least 0.5 stars"⟩
    else if JsNum.gt r (JsNum.fin 5) then
      ⟨false, "Rating cannot exceed 5 stars"⟩
    else if notHalfStep r then
      ⟨false, "Rating must be in half-star increments"⟩
    else ⟨true, "Valid rating"⟩

-- ===========================================================================
-- Data model (`src/lib/data.ts` interfaces)
-- ===========================================================================

/-- Opening hours entry `{open, close}` (strings such as `"11:00"`). -/
structure OpenClose where
  openAt : String
  closeAt : String
deriving DecidableEq, Repr

/-- The `Business` interface.  `hours` is an object mapping weekday names to
an entry or `null` (modelled as an association list with `Option`; an absent
key is an absent pair). -/
structure Business where
  id : String
  name : String
  description : String
  category : String
  subcategory : String
  address : String
  city : String
  state : String
  zipCode : String
  phone : String
  email : String
  website : String
  imageUrl : String
  hours : List (String × Option OpenClose)
  priceLevel : Int
  averageRating : ℚ
  totalReviews : Int
  latitude : ℚ
  longitude : ℚ
  tags : List String
  createdAt : Int
deriving DecidableEq, Repr

/-- The `Review` interface. -/
structure Review where
  id : String
  businessId : String
  userId : String
  userName : String
  rating : ℚ
  comment : String
  helpful : Int
  createdAt : Int
  verified : Bool
deriving DecidableEq, Repr

/-- `dealType` union. -/
inductive DealType where
  | percentage | bogo | fixed | freebie
deriving DecidableEq, Repr

/-- The `Deal` interface. -/
structure Deal where
  id : String
  businessId : String
  title : String
  description : String
  discountPercent : ℚ
  originalPrice : Option ℚ
  dealPrice : Option ℚ
  code : String
  termsAndConditions : String
  expiresAt : Int
  validFrom : Int
  isActive : Bool
  dealType : DealType
  redemptions : Int
  maxRedemptions : Int
  createdAt : Int
deriving DecidableEq, Repr

/-- The `UserSession` interface.  `lastReviewTime` is an ISO string that the
initializer sets to `''` (falsy); `none` models that unset state. -/
structure UserSession where
  id : String
  reviewsThisHour : Int
  lastReviewTime : Option Int
  onboardingComplete : Bool
  highContrastMode : Bool
  createdAt : Int
deriving DecidableEq, Repr

/-- The parsed contents of the five `localStorage` keys (bookmarks omitted:
no claim concerns them). -/
structure StoreState where
  businesses : List Business
  reviews : List Review
  deals : List Deal
  session : Option UserSession
deriving DecidableEq, Repr

/-- `CATEGORIES` constant (only `id` and `name` are consulted by the code
under verification; `icon`/`subcategories` are carried for fidelity). -/
structure Category where
  id : String
  name : String
  icon : String
  subcategories : List String
deriving DecidableEq, Repr

/-- The `CATEGORIES` table from `data.ts`. -/
def CATEGORIES : List Category :=
  [⟨"food", "Food & Dining", "utensils",
    ["Restaurants", "Cafes", "Bakeries", "Fast Food", "Fine Dining", "Food Trucks"]⟩,
   ⟨"retail", "Retail", "shopping-bag",
    ["Clothing", "Electronics", "Books", "Gifts", "Home Goods", "Sports"]⟩,
   ⟨"services", "Services", "briefcase",
    ["Healthcare", "Automotive", "Home Services", "Beauty & Spa", "Legal", "Financial"]⟩,
   ⟨"entertainment", "Entertainment", "music",
    ["Movies", "Live Music", "Gaming", "Arts & Crafts", "Fitness", "Recreation"]⟩,
   ⟨"education", "Education", "graduation-cap",
    ["Tutoring", "Music Lessons", "Language", "Art Classes", "STEM", "Test Prep"]⟩]

-- ===========================================================================
-- Business operations
-- ===========================================================================

/-- The `findIndex` / mutate-at-index / write-back pattern used by
`addReview`, `redeemDeal` and `markReviewHelpful`: replace the first element
satisfying `p` by its image under `f`; no-op when `findIndex` returns -1. -/
def updateFirst (p : α → Bool) (f : α → α) : List α → List α
  | [] => []
  | x :: xs => if p x then f x :: xs else x :: updateFirst p f xs

/-- Weekday names indexed by `Date.prototype.getDay()`. -/
def days : List String :=
  ["sunday", "monday", "tuesday", "wednesday", "thursday", "friday", "saturday"]

/-- The clock reading taken by `isBusinessOpen` from `new Date()`. -/
structure ClockTime where
  day : Fin 7
  hour : Nat
  minute : Nat
deriving DecidableEq, Repr

/-- `isBusinessOpen` from `data.ts`: look up today's hours (false on a
missing or `null` entry), then compare the `HHMM` integer against
`parseInt(open.replace(':',''))` and `parseInt(close.replace(':',''))`;
comparisons against a `NaN` parse are false. -/
def isBusinessOpen (business : Business) (now : ClockTime) : Bool :=
  let today := days.getD now.day.val ""
  match (business.hours.lookup today).join with
  | none => false
  | some hrs =>
    let currentTime : Int := now.hour * 100 + now.minute
    match jsParseInt ⟨removeFirst ':' hrs.openAt.data⟩,
          jsParseInt ⟨removeFirst ':' hrs.closeAt.data⟩ with
    | some openTime, some closeTime =>
      decide (currentTime ≥ openTime) && decide (currentTime ≤ closeTime)
    | some _, none => false
    | none, _ => false

/-- Lower-cased character list of a string (JS `toLowerCase`, ASCII-exact). -/
def lowerStr (s : String) : List Char := s.data.map Char.toLower

/-- `sortBy` union type of `filterBusinesses`. -/
inductive SortKey where
  | rating | reviews | name | price
deriving DecidableEq, Repr

/-- `sortOrder` union type. -/
inductive SortDir where
  | asc | desc
deriving DecidableEq, Repr

/-- Filter parameter object of `filterBusinesses`; `none` models an absent
optional property. -/
structure BusinessFilters where
  search : Option String
  category : Option String
  subcategory : Option String
  priceLevel : Option (List Int)
  minRating : Option ℚ
  sortBy : Option SortKey
  sortOrder : Option SortDir
deriving DecidableEq, Repr

/-- `String.prototype.localeCompare` modelled as code-point comparison
returning -1/0/1 (the default locale agrees on ASCII names). -/
def localeCompare (a b : String) : ℚ :=
  if a < b then -1 else if b < a then 1 else 0

/-- The JS comparator passed to `Array.prototype.sort` by `filterBusinesses`
(`order` is `1` for `'asc'`, `-1` otherwise). -/
def sortCmp (key : SortKey) (order : ℚ) (a b : Business) : ℚ :=
  match key with
  | SortKey.rating => (b.averageRating - a.averageRating) * order
  | SortKey.reviews => ((b.totalReviews - a.totalReviews : ℤ) : ℚ) * order
  | SortKey.name => localeCompare a.name b.name * order
  | SortKey.price => ((a.priceLevel - b.priceLevel : ℤ) : ℚ) * order

/-- `Array.prototype.sort` with a consistent numeric comparator: the stable
sort placing `a` before `b` whenever `cmp a b ≤ 0`. -/
def jsSort (cmp : α → α → ℚ) (l : List α) : List α :=
  List.insertionSort (fun a b => cmp a b ≤ 0) l

/-- The filter phase of `filterBusinesses`: text search over name,
description and tags, then category / subcategory / price-level /
minimum-rating filters, in source order.  Guards reproduce JS truthiness
(`''` and `0` are falsy; an empty `priceLevel` array is skipped
explicitly). -/
def applyFilters (filters : BusinessFilters) (stored : List Business) : List Business :=
  let businesses := stored
  let businesses :=
    match filters.search with
    | some s =>
      if s ≠ "" then
        let searchLower := lowerStr s
        businesses.filter (fun b =>
          containsSub searchLower (lowerStr b.name) ||
          containsSub searchLower (lowerStr b.description) ||
          b.tags.any (fun t => containsSub searchLower (lowerStr t)))
      else businesses
    | none => businesses
  let businesses :=
    match filters.category with
    | some c => if c ≠ "" then businesses.filter (fun b => b.category == c) else businesses
    | none => businesses
  let businesses :=
    match filters.subcategory with
    | some c => if c ≠ "" then businesses.filter (fun b => b.subcategory == c) else businesses
    | none => businesses
  let businesses :=
    match filters.priceLevel with
    | some lvls =>
      if lvls.length > 0 then businesses.filter (fun b => lvls.contains b.priceLevel)
      else businesses
    | none => businesses
  let businesses :=
    match filters.minRating with
    | some r => if r ≠ 0 then businesses.filter (fun b => b.averageRating ≥ r) else businesses
    | none => businesses
  businesses

/-- `filterBusinesses` from `data.ts`: the filter phase followed by the
optional sort (`order` is `1` only when `sortOrder === 'asc'`). -/
def filterBusinesses (filters : BusinessFilters) (stored : List Business) : List Business :=
  let businesses := applyFilters filters stored
  match filters.sortBy with
  | some key =>
    let order : ℚ := if filters.sortOrder = some SortDir.asc then 1 else -1
    jsSort (sortCmp key order) businesses
  | none => businesses

-- ===========================================================================
-- Deal operations
-- ===========================================================================

/-- `getActiveDeals`: filter on `new Date(d.expiresAt) > now` (strict) and
`d.redemptions < d.maxRedemptions`.  Note: neither `isActive` nor
`validFrom` is consulted. -/
def getActiveDeals (now : Int) (deals : List Deal) : List Deal :=
  deals.filter (fun d =>
    decide (d.expiresAt > now) && decide (d.redemptions < d.maxRedemptions))

/-- `redeemDeal`: `findIndex` on the id; when found and
`redemptions < maxRedemptions`, increment and report success, else leave the
stored array unchanged and report failure.  (The recursion is the
`findIndex` + mutate-at-index pattern of the source.) -/
def redeemDeal (deals : List Deal) (dealId : String) : List Deal × Bool :=
  match deals with
  | [] => ([], false)
  | d :: rest =>
    if d.id = dealId then
      if d.redemptions < d.maxRedemptions then
        ({ d with redemptions := d.redemptions + 1 } :: rest, true)
      else (d :: rest, false)
    else
      let r := redeemDeal rest dealId
      (d :: r.1, r.2)

-- ===========================================================================
-- `addReview`
-- ===========================================================================

/-- The `{success, message}` envelope returned by `addReview`. -/
structure SubmitResult where
  success : Bool
  message : String
deriving DecidableEq, Repr

/-- The caller-supplied part of a review
(`Omit<Review, 'id'|'createdAt'|'helpful'|'verified'>`). -/
structure ReviewInput where
  businessId : String
  userId : String
  userName : String
  rating : ℚ
  comment : String
deriving DecidableEq, Repr

/-- The three `spamPatterns` of `addReview`:
`/(.)\1{4,}/i` (a run of 5+ case-folded-equal characters), `/https?:\/\//i`,
and `/<[^>]+>/i`, tested against the raw (untrimmed) comment. -/
def spamMatch (comment : String) : Bool :=
  hasRun 5 foldEq comment.data ||
  containsCI "http://" comment || containsCI "https://" comment ||
  hasHtmlTag comment.data

/-- `hoursSinceLastReview` as computed by `addReview` (in hours, from
millisecond timestamps); `none` when `lastReviewTime` is falsy. -/
def hoursSinceLast (session : UserSession) (now : Int) : Option ℚ :=
  session.lastReviewTime.map (fun last => ((now - last : ℤ) : ℚ) / (1000 * 60 * 60))

/-- The rate-limit rejection test of `addReview`:
`hoursSinceLastReview < 1 && session.reviewsThisHour >= 5` (skipped entirely
when `lastReviewTime` is falsy). -/
def rateLimited (session : UserSession) (now : Int) : Bool :=
  match hoursSinceLast session now with
  | some h => decide (h < 1) && decide (session.reviewsThisHour ≥ 5)
  | none => false

/-- The counter-reset test of `addReview`: `hoursSinceLastReview >= 1`. -/
def resetDue (session : UserSession) (now : Int) : Bool :=
  match hoursSinceLast session now with
  | some h => decide (h ≥ 1)
  | none => false

/-- `addReview` from `data.ts`.  `now` is `new Date()` in epoch milliseconds
and `newId` is the `crypto.randomUUID()` value.  Rejection paths return the
store unchanged (the in-memory session mutation is only persisted by the
final `setItem`, which the success path alone reaches). -/
def addReview (st : StoreState) (now : Int) (newId : String) (inp : ReviewInput) :
    StoreState × SubmitResult :=
  match st.session with
  | none => (st, ⟨false, "Session not initialized"⟩)
  | some session =>
    if rateLimited session now then
      (st, ⟨false, "You have reached the maximum of 5 reviews per hour. Please try again later."⟩)
    else if spamMatch inp.comment then
      (st, ⟨false, "Your review contains content that appears to be spam. Please revise and try again."⟩)
    else
      let resetCounter := resetDue session now
      let newReview : Review :=
        { id := newId, businessId := inp.businessId, userId := inp.userId,
          userName := inp.userName, rating := inp.rating, comment := inp.comment,
          helpful := 0, createdAt := now, verified := false }
      let reviews := newReview :: st.reviews
      let businessReviews := reviews.filter (fun r => r.businessId == inp.businessId)
      let avgRating : ℚ :=
        (businessReviews.map Review.rating).sum / (businessReviews.length : ℚ)
      let businesses := updateFirst (fun b => b.id == inp.businessId)
        (fun b => { b with averageRating := roundTo1 avgRating,
                           totalReviews := (businessReviews.length : Int) }) st.businesses
      let session' := { session with
        reviewsThisHour := (if resetCounter then 0 else session.reviewsThisHour) + 1,
        lastReviewTime := some now }
      ({ st with businesses := businesses, reviews := reviews, session := some session' },
       ⟨true, "Your review has been submitted successfully!"⟩)

-- ===========================================================================
-- `generateReport` / `exportReport`
-- ===========================================================================

/-- Optional filters of `generateReport` (dates in epoch milliseconds). -/
structure ReportFilters where
  startDate : Option Int
  endDate : Option Int
  category : Option String
  minRating : Option ℚ
deriving DecidableEq, Repr

/-- Calling `generateReport()` with the `filters` argument omitted. -/
def noFilters : ReportFilters := ⟨none, none, none, none⟩

/-- Accumulator held per category by the `categoryMap`. -/
structure CatAcc where
  count : Int
  totalRating : ℚ
deriving DecidableEq, Repr

/-- One entry of `categoryBreakdown`. -/
structure CategoryStat where
  category : String
  count : Int
  avgRating : JsNum
deriving DecidableEq, Repr

/-- One entry of `ratingDistribution`. -/
structure RatingBucket where
  rating : Int
  count : Int
deriving DecidableEq, Repr

/-- The `dealStats` sub-object. -/
structure DealStats where
  totalDeals : Int
  totalRedemptions : Int
  avgDiscountPercent : JsNum
deriving DecidableEq, Repr

/-- The `ReportData` interface. -/
structure ReportData where
  totalBusinesses : Int
  totalReviews : Int
  averageRating : JsNum
  categoryBreakdown : List CategoryStat
  ratingDistribution : List RatingBucket
  topRatedBusinesses : List Business
  mostReviewedBusinesses : List Business
  recentReviews : List Review
  dealStats : DealStats
deriving DecidableEq, Repr

/-- `Map.prototype.set`: update an existing key in place (insertion order is
preserved), else append. -/
def mapSet : List (String × CatAcc) → String → CatAcc → List (String × CatAcc)
  | [], k, v => [(k, v)]
  | (k', v') :: rest, k, v =>
    if k' = k then (k, v) :: rest else (k', v') :: mapSet rest k v

/-- The filter phase of `generateReport`: category (restricting both
businesses and reviews), minimum rating (businesses), and review date range. -/
def reportFiltered (f : ReportFilters) (bs : List Business) (rs : List Review) :
    List Business × List Review :=
  let pair :=
    match f.category with
    | some c =>
      if c ≠ "" then
        let businesses := bs.filter (fun b : Business => b.category == c)
        let ids := businesses.map Business.id
        (businesses, rs.filter (fun r : Review => ids.contains r.businessId))
      else (bs, rs)
    | none => (bs, rs)
  let businesses :=
    match f.minRating with
    | some r => if r ≠ 0 then pair.1.filter (fun b => b.averageRating ≥ r) else pair.1
    | none => pair.1
  let reviews :=
    match f.startDate with
    | some t => pair.2.filter (fun r => r.createdAt ≥ t)
    | none => pair.2
  let reviews :=
    match f.endDate with
    | some t => reviews.filter (fun r => r.createdAt ≤ t)
    | none => reviews
  (businesses, reviews)

/-- The `categoryMap` fold of `generateReport`. -/
def categoryMapOf (businesses : List Business) : List (String × CatAcc) :=
  businesses.foldl
    (fun m b =>
      let cat :=
        (((CATEGORIES.find? (fun c => c.id == b.category)).map Category.name).getD b.category)
      let existing := (m.lookup cat).getD ⟨0, 0⟩
      mapSet m cat ⟨existing.count + 1, existing.totalRating + b.averageRating⟩)
    []

/-- The `ratingCounts` fold: bucket `min(⌊rating⌋ - 1, 4)`, skipped when
negative. -/
def bumpBucket (counts : List Int) (r : ℚ) : List Int :=
  let bucket : Int := min (⌊r⌋ - 1) 4
  if bucket ≥ 0 then counts.set bucket.toNat ((counts.getD bucket.toNat 0) + 1)
  else counts

/-- `generateReport` from `data.ts`. -/
def generateReport (f : ReportFilters) (st : StoreState) : ReportData :=
  let fr := reportFiltered f st.businesses st.reviews
  let businesses := fr.1
  let reviews := fr.2
  let deals := st.deals
  let categoryBreakdown :=
    (categoryMapOf businesses).map (fun p =>
      CategoryStat.mk p.1 p.2.count (JsNum.round10 (JsNum.jsDiv p.2.totalRating (p.2.count : ℚ))))
  let ratingCounts := reviews.foldl (fun counts r => bumpBucket counts r.rating) [0, 0, 0, 0, 0]
  let ratingDistribution := ratingCounts.enum.map (fun p => RatingBucket.mk ((p.1 : Int) + 1) p.2)
  let topRatedBusinesses :=
    (jsSort (fun a b : Business => b.averageRating - a.averageRating) businesses).take 5
  let mostReviewedBusinesses :=
    (jsSort (fun a b : Business => ((b.totalReviews - a.totalReviews : ℤ) : ℚ)) businesses).take 5
  let recentReviews :=
    (jsSort (fun a b : Review => ((b.createdAt - a.createdAt : ℤ) : ℚ)) reviews).take 10
  let dealStats : DealStats :=
    ⟨(deals.length : Int),
     (deals.map Deal.redemptions).sum,
     JsNum.round (JsNum.jsDiv ((deals.map Deal.discountPercent).sum) (deals.length : ℚ))⟩
  { totalBusinesses := (businesses.length : Int)
    totalReviews := (reviews.length : Int)
    averageRating :=
      JsNum.round10 (JsNum.jsDiv ((businesses.map Business.averageRating).sum) (businesses.length : ℚ))
    categoryBreakdown := categoryBreakdown
    ratingDistribution := ratingDistribution
    topRatedBusinesses := topRatedBusinesses
    mostReviewedBusinesses := mostReviewedBusinesses
    recentReviews := recentReviews
    dealStats := dealStats }

-- ===========================================================================
-- JSON serialization model (for `exportReport(data, 'json')`)
-- ===========================================================================

/-- A JavaScript value as `JSON.stringify` / `JSON.parse` see it. -/
inductive JVal where
  | null : JVal
  | bool : Bool → JVal
  | num : JsNum → JVal
  | str : String → JVal
  | arr : List JVal → JVal
  | obj : List (String × JVal) → JVal

/-- Finite number leaf. -/
def jnum (q : ℚ) : JVal := JVal.num (JsNum.fin q)

/-- Integer leaf. -/
def jint (n : Int) : JVal := jnum (n : ℚ)

mutual

/-- `JSON.parse(JSON.stringify(v, null, 2))`: the serializer writes `null`
for `NaN` and `±Infinity` and is otherwise faithful, and the parser reads the
written text back exactly. -/
def jsonRoundTrip : JVal → JVal
  | JVal.null => JVal.null
  | JVal.bool b => JVal.bool b
  | JVal.num n =>
    match n with
    | JsNum.fin q => JVal.num (JsNum.fin q)
    | _ => JVal.null
  | JVal.str s => JVal.str s
  | JVal.arr l => JVal.arr (jsonRoundTripList l)
  | JVal.obj l => JVal.obj (jsonRoundTripPairs l)

/-- Elementwise round trip of an array. -/
def jsonRoundTripList : List JVal → List JVal
  | [] => []
  | v :: rest => jsonRoundTrip v :: jsonRoundTripList rest

/-- Fieldwise round trip of an object. -/
def jsonRoundTripPairs : List (String × JVal) → List (String × JVal)
  | [] => []
  | (k, v) :: rest => (k, jsonRoundTrip v) :: jsonRoundTripPairs rest

end

/-- The `hours` object of a business as a JS value (a `null` entry is
serialized as JSON `null`). -/
def hoursToJVal (h : List (String × Option OpenClose)) : JVal :=
  JVal.obj (h.map (fun p =>
    (p.1, match p.2 with
      | none => JVal.null
      | some oc => JVal.obj [("open", JVal.str oc.openAt), ("close", JVal.str oc.closeAt)])))

/-- A `Business` record as the JS object `JSON.stringify` receives
(timestamps are serialized through their ISO string, written here as the
decimal image of the modelled milliseconds — an injective textual form). -/
def businessToJVal (b : Business) : JVal :=
  JVal.obj
    [("id", JVal.str b.id), ("name", JVal.str b.name),
     ("description", JVal.str b.description), ("category", JVal.str b.category),
     ("subcategory", JVal.str b.subcategory), ("address", JVal.str b.address),
     ("city", JVal.str b.city), ("state", JVal.str b.state),
     ("zipCode", JVal.str b.zipCode), ("phone", JVal.str b.phone),
     ("email", JVal.str b.email), ("website", JVal.str b.website),
     ("imageUrl", JVal.str b.imageUrl), ("hours", hoursToJVal b.hours),
     ("priceLevel", jint b.priceLevel), ("averageRating", jnum b.averageRating),
     ("totalReviews", jint b.totalReviews), ("latitude", jnum b.latitude),
     ("longitude", jnum b.longitude),
     ("tags", JVal.arr (b.tags.map JVal.str)),
     ("createdAt", JVal.str (toString b.createdAt))]

/-- A `Review` record as a JS value. -/
def reviewToJVal (r : Review) : JVal :=
  JVal.obj
    [("id", JVal.str r.id), ("businessId", JVal.str r.businessId),
     ("userId", JVal.str r.userId), ("userName", JVal.str r.userName),
     ("rating", jnum r.rating), ("comment", JVal.str r.comment),
     ("helpful", jint r.helpful), ("createdAt", JVal.str (toString r.createdAt)),
     ("verified", JVal.bool r.verified)]

/-- A `ReportData` record as the JS value handed to
`exportReport(data, 'json') = JSON.stringify(data, null, 2)`. -/
def reportToJVal (d : ReportData) : JVal :=
  JVal.obj
    [("totalBusinesses", jint d.totalBusinesses),
     ("totalReviews", jint d.totalReviews),
     ("averageRating", JVal.num d.averageRating),
     ("categoryBreakdown", JVal.arr (d.categoryBreakdown.map (fun c =>
        JVal.obj [("category", JVal.str c.category), ("count", jint c.count),
                  ("avgRating", JVal.num c.avgRating)]))),
     ("ratingDistribution", JVal.arr (d.ratingDistribution.map (fun r =>
        JVal.obj [("rating", jint r.rating), ("count", jint r.count)]))),
     ("topRatedBusinesses", JVal.arr (d.topRatedBusinesses.map businessToJVal)),
     ("mostReviewedBusinesses", JVal.arr (d.mostReviewedBusinesses.map businessToJVal)),
     ("recentReviews", JVal.arr (d.recentReviews.map reviewToJVal)),
     ("dealStats", JVal.obj
        [("totalDeals", jint d.dealStats.totalDeals),
         ("totalRedemptions", jint d.dealStats.totalRedemptions),
         ("avgDiscountPercent", JVal.num d.dealStats.avgDiscountPercent)])]

-- ===========================================================================
-- Concrete fixtures (shared by witnesses and counterexamples)
-- ===========================================================================

/-- A sample business: id "1", food/Cafes, rating 4, Monday 09:00–17:00,
Tuesday explicitly `null`. -/
def bAcme : Business :=
  ⟨"1", "Acme", "desc", "food", "Cafes", "a", "c", "s", "z", "p", "e", "w", "i",
   [("monday", some ⟨"09:00", "17:00"⟩), ("tuesday", none)], 2, 4, 10, 0, 0, ["t"], 0⟩

/-- A deal flagged inactive whose validity window `[100, 200]` has not yet
started, unexpired and unredeemed. -/
def dInactive : Deal :=
  ⟨"d1", "1", "T", "D", 20, none, none, "C", "TC", 200, 100, false,
   DealType.percentage, 0, 5, 0⟩

/-- The same deal flagged active (used at the window's closing edge). -/
def dEdge : Deal := { dInactive with isActive := true }

/-- A session with 5 reviews counted but `lastReviewTime` unset (falsy), as
the initializer creates it. -/
def sessUnset : UserSession := ⟨"s", 5, none, false, false, 0⟩

/-- A store holding one business, one deal and the above session. -/
def stSample : StoreState := ⟨[bAcme], [], [dInactive], some sessUnset⟩

/-- A store with every collection empty. -/
def stEmpty : StoreState := ⟨[], [], [], none⟩

/-- A clean, non-spam review input for business "1". -/
def inpClean : ReviewInput := ⟨"1", "u", "n", 4, "a fine place indeed"⟩

-- ===========================================================================
-- C8 — `validateRating`
-- ===========================================================================

/-- C8: `validateRating` accepts a value iff it is a (finite, non-NaN)
number in `[0.5, 5]` whose double is an integer; in particular `0.5`, `3`
and `5` are valid while `0.3`, `5.5` and `0` are invalid. -/
theorem validateRating_spec :
    (∀ x : RatingInput, (validateRating x).isValid = true ↔
      ∃ q : ℚ, x = RatingInput.num (JsNum.fin q) ∧ 1/2 ≤ q ∧ q ≤ 5 ∧ (2 * q).den = 1) ∧
    (validateRating (RatingInput.num (JsNum.fin (1/2)))).isValid = true ∧
    (validateRating (RatingInput.num (JsNum.fin 3))).isValid = true ∧
    (validateRating (RatingInput.num (JsNum.fin 5))).isValid = true ∧
    (validateRating (RatingInput.num (JsNum.fin (3/10)))).isValid = false ∧
    (validateRating (RatingInput.num (JsNum.fin (11/2)))).isValid = false ∧
    (validateRating (RatingInput.num (JsNum.fin 0))).isValid = false := by
  have main : ∀ x : RatingInput, (validateRating x).isValid = true ↔
      ∃ q : ℚ, x = RatingInput.num (JsNum.fin q) ∧ 1/2 ≤ q ∧ q ≤ 5 ∧ (2 * q).den = 1 := by
    intro x
    cases x with
    | undef => simp [validateRating]
    | nullV => simp [validateRating]
    | num n =>
      cases n with
      | nan => simp [validateRating]
      | inf => simp [validateRating, JsNum.lt, JsNum.gt]
      | ninf => simp [validateRating, JsNum.lt, JsNum.gt]
      | fin q =>
        simp only [validateRating, JsNum.lt, JsNum.gt, notHalfStep, reduceCtorEq, if_false]
        split_ifs with h1 h2 h3 <;> simp_all
  have notval : ∀ x : RatingInput,
      ¬(∃ q : ℚ, x = RatingInput.num (JsNum.fin q) ∧ 1/2 ≤ q ∧ q ≤ 5 ∧ (2 * q).den = 1) →
      (validateRating x).isValid = false := by
    intro x h
    cases hb : (validateRating x).isValid with
    | false => rfl
    | true => exact absurd ((main x).mp hb) h
  refine ⟨main,
    (main _).mpr ⟨1/2, rfl, by norm_num, by norm_num, by norm_num⟩,
    (main _).mpr ⟨3, rfl, by norm_num, by norm_num, by norm_num⟩,
    (main _).mpr ⟨5, rfl, by norm_num, by norm_num, by norm_num⟩,
    notval _ ?_, notval _ ?_, notval _ ?_⟩
  · rintro ⟨q, hq, h1, h2, hd⟩
    cases hq
    norm_num at hd
  · rintro ⟨q, hq, h1, h2, hd⟩
    cases hq
    norm_num at h2
  · rintro ⟨q, hq, h1, h2, hd⟩
    cases hq
    norm_num at h1

-- ===========================================================================
-- C1 — `getActiveDeals`
-- ===========================================================================

/-- C1 (counterexample to the claim as stated): `getActiveDeals` returns
`dInactive` although it is not flagged active and the current time is before
its `validFrom`, and omits `dEdge` although the current time equals its
(inclusive, per the claim) `expiresAt` while all of the claim's conditions
hold. -/
theorem getActiveDeals_claim_counterexample :
    (getActiveDeals 50 [dInactive] = [dInactive] ∧ dInactive.isActive = false ∧
      (50 : Int) < dInactive.validFrom) ∧
    (getActiveDeals 200 [dEdge] = [] ∧ dEdge.isActive = true ∧
      dEdge.validFrom ≤ 200 ∧ (200 : Int) ≤ dEdge.expiresAt ∧
      dEdge.redemptions < dEdge.maxRedemptions) := by
  decide

/-- C1 (amended): a stored deal is returned by `getActiveDeals` iff the
current time is strictly before its `expiresAt` and it is not fully
redeemed; `isActive` and `validFrom` are not consulted. -/
theorem mem_getActiveDeals :
    ∀ (now : Int) (deals : List Deal) (d : Deal),
      d ∈ getActiveDeals now deals ↔
        d ∈ deals ∧ now < d.expiresAt ∧ d.redemptions < d.maxRedemptions := by
  intro now deals d
  simp [getActiveDeals, List.mem_filter]

-- ===========================================================================
-- C7 — `isBusinessOpen`
-- ===========================================================================

/-- C7: `isBusinessOpen` returns false when today's hours entry is missing
or `null`; otherwise (with both time strings parsing to integers) it returns
true iff `open ≤ HHMM ≤ close`, both boundaries inclusive. -/
theorem isBusinessOpen_spec :
    (∀ (b : Business) (now : ClockTime),
        b.hours.lookup (days.getD now.day.val "") = none →
        isBusinessOpen b now = false) ∧
    (∀ (b : Business) (now : ClockTime),
        b.hours.lookup (days.getD now.day.val "") = some none →
        isBusinessOpen b now = false) ∧
    (∀ (b : Business) (now : ClockTime) (oc : OpenClose) (o c : Int),
        b.hours.lookup (days.getD now.day.val "") = some (some oc) →
        jsParseInt ⟨removeFirst ':' oc.openAt.data⟩ = some o →
        jsParseInt ⟨removeFirst ':' oc.closeAt.data⟩ = some c →
        (isBusinessOpen b now = true ↔
          (o ≤ (now.hour * 100 + now.minute : Int) ∧
           (now.hour * 100 + now.minute : Int) ≤ c))) := by
  refine ⟨?_, ?_, ?_⟩
  · intro b now h
    unfold isBusinessOpen
    dsimp only
    rw [h]
    rfl
  · intro b now h
    unfold isBusinessOpen
    dsimp only
    rw [h]
    rfl
  · intro b now oc o c h ho hc
    unfold isBusinessOpen
    dsimp only
    rw [h]
    show (match jsParseInt ⟨removeFirst ':' oc.openAt.data⟩,
            jsParseInt ⟨removeFirst ':' oc.closeAt.data⟩ with
          | some openTime, some closeTime =>
            decide ((now.hour * 100 + now.minute : Int) ≥ openTime) &&
            decide ((now.hour * 100 + now.minute : Int) ≤ closeTime)
          | some _, none => false
          | none, _ => false) = true ↔ _
    rw [ho, hc]
    simp [ge_iff_le, and_comm]

/-- Witness for C7 at `bAcme`: open Monday 09:00 (inclusive lower edge) and
closed on the `null` Tuesday entry. -/
theorem isBusinessOpen_spec_witness :
    isBusinessOpen bAcme ⟨1, 9, 0⟩ = true ∧ isBusinessOpen bAcme ⟨2, 12, 0⟩ = false :=
  ⟨(isBusinessOpen_spec.2.2 bAcme ⟨1, 9, 0⟩ ⟨"09:00", "17:00"⟩ 900 1700 rfl rfl rfl).mpr
     (by decide),
   isBusinessOpen_spec.2.1 bAcme ⟨2, 12, 0⟩ rfl⟩

-- ===========================================================================
-- C6 — `addReview`'s spam filter vs `validateReview`
-- ===========================================================================

/-- C6: after the rate-limit gate, `addReview` fails exactly on the three
spam patterns; the rule set differs from `validateReview` in both
directions: `"aaaaabcdef"` (a 5-character run) passes `validateReview` but
is rejected by the spam filter, while `"hi"` fails `validateReview` but
passes the spam filter. -/
theorem addReview_spam_vs_validateReview :
    (∀ (st : StoreState) (sess : UserSession) (now : Int) (newId : String)
        (inp : ReviewInput),
        st.session = some sess → rateLimited sess now = false →
        ((addReview st now newId inp).2.success = false ↔
          spamMatch inp.comment = true)) ∧
    ((validateReview "aaaaabcdef").isValid = true ∧ spamMatch "aaaaabcdef" = true) ∧
    ((validateReview "hi").isValid = false ∧ spamMatch "hi" = false) := by
  have hc1 : validateReview "aaaaabcdef" = ⟨true, "Valid review"⟩ := by
    unfold validateReview
    dsimp only
    split_ifs with h1 h2 h3 h4 h5 h6 h7
    · revert h1; decide
    · revert h2; decide
    · revert h3; decide
    · revert h4; decide
    · revert h5; decide
    · revert h6; decide
    · exfalso; revert h7; simp; intro h; decide
    · rfl
  refine ⟨?_, ⟨by rw [hc1], by decide⟩, ⟨by decide, by decide⟩⟩
  intro st sess now newId inp hs hrl
  unfold addReview
  rw [hs]
  simp only [hrl, Bool.false_eq_true, if_false]
  by_cases hsp : spamMatch inp.comment
  · simp [hsp]
  · simp [hsp]

/-- Witness for C6 applied at the sample store: the spam-run comment is
rejected there. -/
theorem addReview_spam_vs_validateReview_witness :
    ((addReview stSample 0 "r1" ⟨"1", "u", "n", 4, "aaaaabcdef"⟩).2.success = false ↔
      spamMatch "aaaaabcdef" = true) :=
  addReview_spam_vs_validateReview.1 stSample sessUnset 0 "r1"
    ⟨"1", "u", "n", 4, "aaaaabcdef"⟩ rfl (by decide)

-- ===========================================================================
-- C4 — `redeemDeal`
-- ===========================================================================

/-- If the head id is distinct, `redeemDeal` passes over the head. -/
theorem redeemDeal_cons_ne {x : Deal} {xs : List Deal} {i : String} (h : x.id ≠ i) :
    redeemDeal (x :: xs) i = ((x :: (redeemDeal xs i).1, (redeemDeal xs i).2)) := by
  simp [redeemDeal, h]

/-- A stored deal below its cap (unique id) is incremented by exactly one
and success is reported. -/
theorem redeemDeal_found_lt {xs : List Deal} {d : Deal} (hmem : d ∈ xs)
    (hnd : (xs.map Deal.id).Nodup) (hlt : d.redemptions < d.maxRedemptions) :
    (redeemDeal xs d.id).2 = true ∧
      ∀ d' ∈ (redeemDeal xs d.id).1, d'.id = d.id →
        d'.redemptions = d.redemptions + 1 := by
  induction xs with
  | nil => cases hmem
  | cons x xs ih =>
    rw [List.map_cons, List.nodup_cons] at hnd
    by_cases hx : x.id = d.id
    · have hxd : d = x := by
        rcases List.mem_cons.mp hmem with h | h
        · exact h
        · exact absurd (hx ▸ List.mem_map_of_mem Deal.id h) hnd.1
      subst hxd
      simp only [redeemDeal, if_pos rfl, if_pos hlt]
      refine ⟨rfl, ?_⟩
      intro d' hd' hid
      rcases List.mem_cons.mp hd' with h | h
      · subst h; rfl
      · exact absurd (hid ▸ List.mem_map_of_mem Deal.id h) hnd.1
    · have hmem' : d ∈ xs := by
        rcases List.mem_cons.mp hmem with h | h
        · exact absurd (congrArg Deal.id h.symm) hx
        · exact h
      have := ih hmem' hnd.2
      rw [redeemDeal_cons_ne hx]
      refine ⟨this.1, ?_⟩
      intro d' hd' hid
      rcases List.mem_cons.mp hd' with h | h
      · exact absurd (h ▸ hid) hx
      · exact this.2 d' h hid

/-- Once a stored deal (unique id) has reached its cap, `redeemDeal` reports
failure and returns the stored list unchanged. -/
theorem redeemDeal_found_eq {xs : List Deal} {d : Deal} (hmem : d ∈ xs)
    (hnd : (xs.map Deal.id).Nodup) (heq : d.redemptions = d.maxRedemptions) :
    (redeemDeal xs d.id).2 = false ∧ (redeemDeal xs d.id).1 = xs := by
  have hge : ¬ d.redemptions < d.maxRedemptions := by omega
  induction xs with
  | nil => cases hmem
  | cons x xs ih =>
    rw [List.map_cons, List.nodup_cons] at hnd
    by_cases hx : x.id = d.id
    · have hxd : d = x := by
        rcases List.mem_cons.mp hmem with h | h
        · exact h
        · exact absurd (hx ▸ List.mem_map_of_mem Deal.id h) hnd.1
      subst hxd
      simp only [redeemDeal, if_pos rfl, if_neg hge]
      exact ⟨rfl, rfl⟩
    · have hmem' : d ∈ xs := by
        rcases List.mem_cons.mp hmem with h | h
        · exact absurd (congrArg Deal.id h.symm) hx
        · exact h
      have := ih hmem'
      rw [redeemDeal_cons_ne hx]
      exact ⟨(this hnd.2).1, by rw [(this hnd.2).2]⟩

/-- One `redeemDeal` call preserves `redemptions ≤ maxRedemptions` for every
stored deal. -/
theorem redeemDeal_preserves_bound {xs : List Deal} {i : String}
    (h : ∀ d ∈ xs, d.redemptions ≤ d.maxRedemptions) :
    ∀ d' ∈ (redeemDeal xs i).1, d'.redemptions ≤ d'.maxRedemptions := by
  induction xs with
  | nil => intro d' hd'; cases hd'
  | cons x xs ih =>
    intro d' hd'
    by_cases hx : x.id = i
    · by_cases hlt : x.redemptions < x.maxRedemptions
      · simp only [redeemDeal, if_pos hx, if_pos hlt] at hd'
        rcases List.mem_cons.mp hd' with he | he
        · subst he; simp; omega
        · exact h d' (List.mem_cons_of_mem _ he)
      · simp only [redeemDeal, if_pos hx, if_neg hlt] at hd'
        exact h d' hd'
    · rw [redeemDeal_cons_ne hx] at hd'
      rcases List.mem_cons.mp hd' with he | he
      · subst he; exact h d' (List.mem_cons_self _ _)
      · exact ih (fun d hd => h d (List.mem_cons_of_mem _ hd)) d' he

/-- C4: with unique deal ids, `redeemDeal d.id` increments `d.redemptions`
by exactly 1 and returns true while below `maxRedemptions`; once the two are
equal it returns false and leaves the stored deals unchanged; and over any
sequence of calls `redemptions` never exceeds `maxRedemptions`. -/
theorem redeemDeal_spec :
    (∀ (deals : List Deal) (d : Deal),
        d ∈ deals → (deals.map Deal.id).Nodup →
        (d.redemptions < d.maxRedemptions →
            (redeemDeal deals d.id).2 = true ∧
            ∀ d' ∈ (redeemDeal deals d.id).1, d'.id = d.id →
              d'.redemptions = d.redemptions + 1) ∧
        (d.redemptions = d.maxRedemptions →
            (redeemDeal deals d.id).2 = false ∧ (redeemDeal deals d.id).1 = deals)) ∧
    (∀ (ids : List String) (deals : List Deal),
        (∀ d ∈ deals, d.redemptions ≤ d.maxRedemptions) →
        ∀ d' ∈ ids.foldl (fun ds i => (redeemDeal ds i).1) deals,
          d'.redemptions ≤ d'.maxRedemptions) := by
  constructor
  · intro deals d hmem hnd
    exact ⟨fun hlt => redeemDeal_found_lt hmem hnd hlt,
           fun heq => redeemDeal_found_eq hmem hnd heq⟩
  · intro ids
    induction ids with
    | nil => intro deals h d' hd'; exact h d' hd'
    | cons i ids ih =>
      intro deals h d' hd'
      exact ih (redeemDeal deals i).1 (redeemDeal_preserves_bound h) d' hd'

/-- Witness for C4 at the sample deal: below its cap, redemption succeeds. -/
theorem redeemDeal_spec_witness :
    (redeemDeal [dInactive] dInactive.id).2 = true :=
  ((redeemDeal_spec.1 [dInactive] dInactive (by simp) (by simp)).1 (by decide)).1

-- ===========================================================================
-- C3 — rate limiting in `addReview`
-- ===========================================================================

/-- A session that has already posted 5 reviews, the last at time 0. -/
def sessFull : UserSession := ⟨"s", 5, some 0, false, false, 0⟩

/-- The sample store with `sessFull` as its session. -/
def stRate : StoreState := ⟨[bAcme], [], [dInactive], some sessFull⟩

/-- C3 (counterexample to the claim as stated): a session with
`reviewsThisHour = 5` but `lastReviewTime` unset (exactly how the
initializer seeds it, `''`) is not rate limited at all — the submission
succeeds and the persisted counter becomes 6 with `lastReviewTime` set to
the current instant, i.e. the counter exceeds 5 inside the new 60-minute
window. -/
theorem addReview_rateLimit_counterexample :
    sessUnset.reviewsThisHour = 5 ∧ sessUnset.lastReviewTime = none ∧
    (addReview stSample 0 "r1" inpClean).2.success = true ∧
    ((addReview stSample 0 "r1" inpClean).1.session).map UserSession.reviewsThisHour =
      some 6 ∧
    ((addReview stSample 0 "r1" inpClean).1.session).map UserSession.lastReviewTime =
      some (some 0) := by
  decide

/-- Folding a sequence of `addReview` calls, each with its own clock
reading, fresh id and input. -/
def applyReviews (st : StoreState) (calls : List (Int × String × ReviewInput)) : StoreState :=
  calls.foldl (fun s c => (addReview s c.1 c.2.1 c.2.2).1) st

/-- One `addReview` call preserves the session invariant "counter at most 5
and `lastReviewTime` set". -/
theorem addReview_session_invariant {st : StoreState} {sess : UserSession} (now : Int)
    (newId : String) (inp : ReviewInput)
    (hs : st.session = some sess) (hc : sess.reviewsThisHour ≤ 5)
    (hl : sess.lastReviewTime ≠ none) :
    ∃ sess', (addReview st now newId inp).1.session = some sess' ∧
      sess'.reviewsThisHour ≤ 5 ∧ sess'.lastReviewTime ≠ none := by
  unfold addReview
  rw [hs]
  dsimp only
  by_cases hrl : rateLimited sess now
  · rw [if_pos hrl]
    exact ⟨sess, hs, hc, hl⟩
  · rw [if_neg hrl]
    by_cases hsp : spamMatch inp.comment
    · rw [if_pos hsp]
      exact ⟨sess, hs, hc, hl⟩
    · rw [if_neg hsp]
      refine ⟨_, rfl, ?_, by simp⟩
      by_cases hr : resetDue sess now
      · simp [hr]
      · obtain ⟨l, hlx⟩ : ∃ l, sess.lastReviewTime = some l :=
          Option.ne_none_iff_exists'.mp hl
        have hres : ¬ (1 : ℚ) ≤ ((now - l : ℤ) : ℚ) / (1000 * 60 * 60) := by
          simpa [resetDue, hoursSinceLast, hlx, ge_iff_le] using hr
        have hrl' :
            ¬ (((now - l : ℤ) : ℚ) / (1000 * 60 * 60) < 1 ∧ 5 ≤ sess.reviewsThisHour) := by
          simpa [rateLimited, hoursSinceLast, hlx, ge_iff_le] using hrl
        have hlt : ((now - l : ℤ) : ℚ) / (1000 * 60 * 60) < 1 := not_le.mp hres
        have : sess.reviewsThisHour < 5 := by
          by_contra hge
          exact hrl' ⟨hlt, by omega⟩
        simp only [hr, if_false, Bool.false_eq_true]
        omega

/-- C3 (amended): for sessions whose `lastReviewTime` is set, the counter
never exceeds 5 over any sequence of calls; with the counter at 5 (or more)
a submission strictly inside the hour is rejected with the rate-limit
message; and a submission at least one hour after `lastReviewTime` (with a
clean comment) succeeds with the counter reset to 1. -/
theorem addReview_rateLimit_amended :
    (∀ (st : StoreState) (sess : UserSession) (calls : List (Int × String × ReviewInput)),
        st.session = some sess → sess.reviewsThisHour ≤ 5 →
        sess.lastReviewTime ≠ none →
        ∃ sess', (applyReviews st calls).session = some sess' ∧
          sess'.reviewsThisHour ≤ 5 ∧ sess'.lastReviewTime ≠ none) ∧
    (∀ (st : StoreState) (sess : UserSession) (now : Int) (newId : String)
        (inp : ReviewInput) (last : Int),
        st.session = some sess → sess.lastReviewTime = some last →
        sess.reviewsThisHour ≥ 5 → ((now - last : ℤ) : ℚ) / (1000 * 60 * 60) < 1 →
        addReview st now newId inp =
          (st, ⟨false,
            "You have reached the maximum of 5 reviews per hour. Please try again later."⟩)) ∧
    (∀ (st : StoreState) (sess : UserSession) (now : Int) (newId : String)
        (inp : ReviewInput) (last : Int),
        st.session = some sess → sess.lastReviewTime = some last →
        ((now - last : ℤ) : ℚ) / (1000 * 60 * 60) ≥ 1 → spamMatch inp.comment = false →
        (addReview st now newId inp).2.success = true ∧
        ∃ sess', (addReview st now newId inp).1.session = some sess' ∧
          sess'.reviewsThisHour = 1) := by
  refine ⟨?_, ?_, ?_⟩
  · intro st sess calls
    induction calls generalizing st sess with
    | nil => intro hs hc hl; exact ⟨sess, hs, hc, hl⟩
    | cons c calls ih =>
      intro hs hc hl
      obtain ⟨sess', hs', hc', hl'⟩ := addReview_session_invariant c.1 c.2.1 c.2.2 hs hc hl
      exact ih _ _ hs' hc' hl'
  · intro st sess now newId inp last hs hlast hcount hlt
    have hrl : rateLimited sess now = true := by
      simp [rateLimited, hoursSinceLast, hlast]
      push_cast at hlt
      exact ⟨hlt, hcount⟩
    unfold addReview
    rw [hs]
    dsimp only
    rw [if_pos hrl]
  · intro st sess now newId inp last hs hlast hge hsp
    have hrl : rateLimited sess now = false := by
      simp [rateLimited, hoursSinceLast, hlast]
      intro h
      push_cast at hge
      linarith
    have hrd : resetDue sess now = true := by
      simp [resetDue, hoursSinceLast, hlast, ge_iff_le]
      push_cast at hge
      exact hge
    unfold addReview
    rw [hs]
    dsimp only
    rw [if_neg (by simp [hrl]), if_neg (by simp [hsp])]
    refine ⟨rfl, _, rfl, ?_⟩
    simp [hrd]

/-- Witness for C3's amended statement: the invariant and both scenario
conjuncts applied to the concrete session with 5 reviews and
`lastReviewTime = 0`. -/
theorem addReview_rateLimit_amended_witness :
    (∃ sess', (applyReviews stRate [(1000, "r1", inpClean)]).session = some sess' ∧
      sess'.reviewsThisHour ≤ 5 ∧ sess'.lastReviewTime ≠ none) ∧
    addReview stRate 1000 "r1" inpClean =
      (stRate, ⟨false,
        "You have reached the maximum of 5 reviews per hour. Please try again later."⟩) ∧
    (addReview stRate 3600000 "r1" inpClean).2.success = true :=
  ⟨addReview_rateLimit_amended.1 stRate sessFull [(1000, "r1", inpClean)] rfl
      (by decide) (by decide),
   addReview_rateLimit_amended.2.1 stRate sessFull 1000 "r1" inpClean 0 rfl rfl
      (by decide) (by norm_num),
   (addReview_rateLimit_amended.2.2 stRate sessFull 3600000 "r1" inpClean 0 rfl rfl
      (by norm_num) (by decide)).1⟩

-- ===========================================================================
-- C2 — `addReview` recomputes `averageRating` / `totalReviews`
-- ===========================================================================

/-- The `Review` record built by `addReview` on success. -/
def newReviewOf (newId : String) (now : Int) (inp : ReviewInput) : Review :=
  ⟨newId, inp.businessId, inp.userId, inp.userName, inp.rating, inp.comment, 0, now, false⟩

/-- The stored reviews referencing a business id
(`reviews.filter(r => r.businessId === businessId)`). -/
def reviewsFor (rs : List Review) (bid : String) : List Review :=
  rs.filter (fun r => r.businessId == bid)

/-- A successful `addReview` implies the session existed and neither the
rate limit nor the spam filter fired. -/
theorem addReview_success_cases {st : StoreState} {now : Int} {newId : String}
    {inp : ReviewInput}
    (h : (addReview st now newId inp).2.success = true) :
    ∃ sess, st.session = some sess ∧ rateLimited sess now = false ∧
      spamMatch inp.comment = false := by
  unfold addReview at h
  cases hsess : st.session with
  | none => rw [hsess] at h; simp at h
  | some sess =>
    rw [hsess] at h
    dsimp only at h
    by_cases hrl : rateLimited sess now
    · rw [if_pos hrl] at h; simp at h
    · rw [if_neg hrl] at h
      by_cases hsp : spamMatch inp.comment
      · rw [if_pos hsp] at h; simp at h
      · exact ⟨sess, rfl, Bool.eq_false_iff.mpr hrl, Bool.eq_false_iff.mpr hsp⟩

/-- The store written by a successful `addReview`: the new review is
prepended, and the first business matching the id gets the recomputed
rounded mean and count. -/
theorem addReview_success_shape {st : StoreState} {sess : UserSession} {now : Int}
    {newId : String} {inp : ReviewInput}
    (hsess : st.session = some sess) (hrl : rateLimited sess now = false)
    (hsp : spamMatch inp.comment = false) :
    (addReview st now newId inp).1.reviews = newReviewOf newId now inp :: st.reviews ∧
    (addReview st now newId inp).1.businesses =
      updateFirst (fun b => b.id == inp.businessId)
        (fun b =>
          { b with
            averageRating :=
              roundTo1
                (((reviewsFor (newReviewOf newId now inp :: st.reviews)
                     inp.businessId).map Review.rating).sum /
                 ((reviewsFor (newReviewOf newId now inp :: st.reviews)
                     inp.businessId).length : ℚ)),
            totalReviews :=
              ((reviewsFor (newReviewOf newId now inp :: st.reviews)
                  inp.businessId).length : Int) })
        st.businesses := by
  unfold addReview
  rw [hsess]
  dsimp only
  rw [if_neg (by simp [hrl]), if_neg (by simp [hsp])]
  exact ⟨rfl, rfl⟩

/-- Elements of `updateFirst` that match a unique id carry the replacement's
field values. -/
theorem updateFirst_mem_constfields (tid : String) (avg : ℚ) (tot : Int) :
    ∀ l : List Business, (l.map Business.id).Nodup →
      ∀ b' ∈ updateFirst (fun b => b.id == tid)
          (fun b => { b with averageRating := avg, totalReviews := tot }) l,
        b'.id = tid → b'.averageRating = avg ∧ b'.totalReviews = tot := by
  intro l
  induction l with
  | nil => intro _ b' h; cases h
  | cons x xs ih =>
    intro hnd b' hb' hid
    rw [List.map_cons, List.nodup_cons] at hnd
    by_cases hx : x.id = tid
    · rw [updateFirst, if_pos (by simpa using hx)] at hb'
      rcases List.mem_cons.mp hb' with he | he
      · subst he; exact ⟨rfl, rfl⟩
      · exfalso
        have hmm : b'.id ∈ xs.map Business.id := List.mem_map_of_mem _ he
        rw [hid, ← hx] at hmm
        exact hnd.1 hmm
    · rw [updateFirst, if_neg (by simpa using hx)] at hb'
      rcases List.mem_cons.mp hb' with he | he
      · subst he; exact absurd hid hx
      · exact ih hnd.2 b' he hid

/-- C2: after a successful `addReview` for a business `B` present in a store
with unique business ids, every stored business carrying the target id has
`averageRating` equal to the one-decimal-rounded mean of the stored reviews
for that id and `totalReviews` equal to their count. -/
theorem addReview_recomputes_stats :
    ∀ (st : StoreState) (now : Int) (newId : String) (inp : ReviewInput) (B : Business),
      (st.businesses.map Business.id).Nodup →
      B ∈ st.businesses → B.id = inp.businessId →
      (addReview st now newId inp).2.success = true →
      ∀ b' ∈ (addReview st now newId inp).1.businesses, b'.id = inp.businessId →
        b'.averageRating =
          roundTo1
            (((reviewsFor (addReview st now newId inp).1.reviews
                 inp.businessId).map Review.rating).sum /
             ((reviewsFor (addReview st now newId inp).1.reviews
                 inp.businessId).length : ℚ)) ∧
        b'.totalReviews =
          ((reviewsFor (addReview st now newId inp).1.reviews
              inp.businessId).length : Int) := by
  intro st now newId inp B hnd hB hid hsucc b' hb' hb'id
  obtain ⟨sess, hsess, hrl, hsp⟩ := addReview_success_cases hsucc
  obtain ⟨hrev, hbus⟩ := addReview_success_shape hsess hrl hsp
  rw [hrev]
  rw [hbus] at hb'
  exact updateFirst_mem_constfields inp.businessId _ _ st.businesses hnd b' hb' hb'id

/-- The updated business record produced by the concrete submission below
(fields written exactly as `addReview` computes them). -/
def acmeUpdated : Business :=
  { bAcme with
    averageRating :=
      roundTo1
        (((reviewsFor (addReview stSample 0 "r1" inpClean).1.reviews
             inpClean.businessId).map Review.rating).sum /
         ((reviewsFor (addReview stSample 0 "r1" inpClean).1.reviews
             inpClean.businessId).length : ℚ)),
    totalReviews :=
      ((reviewsFor (addReview stSample 0 "r1" inpClean).1.reviews
          inpClean.businessId).length : Int) }

/-- Witness for C2: the concrete submission to `stSample` succeeds and the
stored business "1" carries the recomputed statistics. -/
theorem addReview_recomputes_stats_witness :
    acmeUpdated.averageRating =
      roundTo1
        (((reviewsFor (addReview stSample 0 "r1" inpClean).1.reviews
             inpClean.businessId).map Review.rating).sum /
         ((reviewsFor (addReview stSample 0 "r1" inpClean).1.reviews
             inpClean.businessId).length : ℚ)) ∧
    acmeUpdated.totalReviews =
      ((reviewsFor (addReview stSample 0 "r1" inpClean).1.reviews
          inpClean.businessId).length : Int) :=
  addReview_recomputes_stats stSample 0 "r1" inpClean bAcme (by decide) (by decide) rfl
    (by decide) acmeUpdated (by exact List.mem_singleton.mpr rfl) rfl

-- ===========================================================================
-- C9 — NaN in `generateReport`
-- ===========================================================================

/-- C9: `generateReport` performs the `avgDiscountPercent` division
unguarded, so an empty deals collection yields `NaN`; likewise the top-level
`averageRating` is `NaN` when the filtered business list is empty.  Both are
returned inside an ordinary `ReportData` — the function is total and signals
no error. -/
theorem generateReport_nan :
    (∀ (f : ReportFilters) (st : StoreState), st.deals = [] →
        (generateReport f st).dealStats.avgDiscountPercent = JsNum.nan) ∧
    (∀ (f : ReportFilters) (st : StoreState),
        (reportFiltered f st.businesses st.reviews).1 = [] →
        (generateReport f st).averageRating = JsNum.nan) := by
  constructor
  · intro f st h
    unfold generateReport
    dsimp only
    rw [h]
    simp [JsNum.jsDiv, JsNum.round]
  · intro f st h
    unfold generateReport
    dsimp only
    rw [h]
    simp [JsNum.jsDiv, JsNum.round10]

/-- Witness for C9 at the empty store. -/
theorem generateReport_nan_witness :
    (generateReport noFilters stEmpty).dealStats.avgDiscountPercent = JsNum.nan ∧
    (generateReport noFilters stEmpty).averageRating = JsNum.nan :=
  ⟨generateReport_nan.1 noFilters stEmpty rfl, generateReport_nan.2 noFilters stEmpty rfl⟩

-- ===========================================================================
-- C10 — sort directions in `filterBusinesses`
-- ===========================================================================

/-- `Array.prototype.sort` output is sorted for a total, transitive
comparator: consecutive elements satisfy `cmp a b ≤ 0`. -/
theorem jsSort_sorted (cmp : α → α → ℚ)
    (htot : ∀ a b, cmp a b ≤ 0 ∨ cmp b a ≤ 0)
    (htrans : ∀ a b c, cmp a b ≤ 0 → cmp b c ≤ 0 → cmp a c ≤ 0)
    (l : List α) : (jsSort cmp l).Pairwise (fun a b => cmp a b ≤ 0) := by
  letI : IsTotal α (fun a b => cmp a b ≤ 0) := ⟨htot⟩
  letI : IsTrans α (fun a b => cmp a b ≤ 0) := ⟨fun a b c => htrans a b c⟩
  exact List.sorted_insertionSort _ l

/-- C10: under `sortBy: 'rating'`/`'reviews'` the direction is inverted —
`'asc'` produces a non-increasing sequence and `'desc'` a non-decreasing
one — while `'name'` and `'price'` with `'asc'` are non-decreasing, and an
omitted `sortOrder` behaves exactly like `'desc'`. -/
theorem filterBusinesses_sort_directions :
    (∀ (fs : BusinessFilters) (bs : List Business),
        (filterBusinesses
            { fs with sortBy := some SortKey.rating, sortOrder := some SortDir.asc }
            bs).Pairwise (fun a b => b.averageRating ≤ a.averageRating)) ∧
    (∀ (fs : BusinessFilters) (bs : List Business),
        (filterBusinesses
            { fs with sortBy := some SortKey.rating, sortOrder := some SortDir.desc }
            bs).Pairwise (fun a b => a.averageRating ≤ b.averageRating)) ∧
    (∀ (fs : BusinessFilters) (bs : List Business),
        (filterBusinesses
            { fs with sortBy := some SortKey.reviews, sortOrder := some SortDir.asc }
            bs).Pairwise (fun a b => b.totalReviews ≤ a.totalReviews)) ∧
    (∀ (fs : BusinessFilters) (bs : List Business),
        (filterBusinesses
            { fs with sortBy := some SortKey.reviews, sortOrder := some SortDir.desc }
            bs).Pairwise (fun a b => a.totalReviews ≤ b.totalReviews)) ∧
    (∀ (fs : BusinessFilters) (bs : List Business),
        (filterBusinesses
            { fs with sortBy := some SortKey.name, sortOrder := some SortDir.asc }
            bs).Pairwise (fun a b => localeCompare a.name b.name ≤ 0)) ∧
    (∀ (fs : BusinessFilters) (bs : List Business),
        (filterBusinesses
            { fs with sortBy := some SortKey.price, sortOrder := some SortDir.asc }
            bs).Pairwise (fun a b => a.priceLevel ≤ b.priceLevel)) ∧
    (∀ (fs : BusinessFilters) (bs : List Business),
        filterBusinesses { fs with sortOrder := none } bs =
          filterBusinesses { fs with sortOrder := some SortDir.desc } bs) := by
  have hloc : ∀ a b : String, localeCompare a b ≤ 0 ↔ a ≤ b := by
    intro a b
    unfold localeCompare
    split_ifs with h1 h2
    · simp [le_of_lt h1]
    · simp [not_le.mpr h2]
    · simp [le_of_not_lt h2]
  refine ⟨?_, ?_, ?_, ?_, ?_, ?_, ?_⟩
  · intro fs bs
    have heq : filterBusinesses
        { fs with sortBy := some SortKey.rating, sortOrder := some SortDir.asc } bs =
        jsSort (sortCmp SortKey.rating 1)
          (applyFilters
            { fs with sortBy := some SortKey.rating, sortOrder := some SortDir.asc } bs) := rfl
    rw [heq]
    refine (jsSort_sorted _ ?_ ?_ _).imp (fun hab => by simp [sortCmp] at hab; linarith)
    · intro a b
      simp only [sortCmp, mul_one]
      rcases le_total a.averageRating b.averageRating with h | h
      · right; linarith
      · left; linarith
    · intro a b c h1 h2
      simp only [sortCmp, mul_one] at h1 h2 ⊢
      linarith
  · intro fs bs
    have heq : filterBusinesses
        { fs with sortBy := some SortKey.rating, sortOrder := some SortDir.desc } bs =
        jsSort (sortCmp SortKey.rating (-1))
          (applyFilters
            { fs with sortBy := some SortKey.rating, sortOrder := some SortDir.desc } bs) := rfl
    rw [heq]
    refine (jsSort_sorted _ ?_ ?_ _).imp (fun hab => by simp [sortCmp] at hab; linarith)
    · intro a b
      simp only [sortCmp]
      rcases le_total a.averageRating b.averageRating with h | h
      · left; nlinarith
      · right; nlinarith
    · intro a b c h1 h2
      simp only [sortCmp] at h1 h2 ⊢
      nlinarith
  · intro fs bs
    have heq : filterBusinesses
        { fs with sortBy := some SortKey.reviews, sortOrder := some SortDir.asc } bs =
        jsSort (sortCmp SortKey.reviews 1)
          (applyFilters
            { fs with sortBy := some SortKey.reviews, sortOrder := some SortDir.asc } bs) := rfl
    rw [heq]
    refine (jsSort_sorted _ ?_ ?_ _).imp ?_
    · intro a b
      simp only [sortCmp, mul_one]
      rcases le_total a.totalReviews b.totalReviews with h | h
      · right; exact_mod_cast sub_nonpos.mpr h
      · left; exact_mod_cast sub_nonpos.mpr h
    · intro a b c h1 h2
      simp only [sortCmp, mul_one] at h1 h2 ⊢
      push_cast at h1 h2 ⊢
      linarith
    · intro a b hab
      simp only [sortCmp, mul_one] at hab
      exact sub_nonpos.mp (by exact_mod_cast hab)
  · intro fs bs
    have heq : filterBusinesses
        { fs with sortBy := some SortKey.reviews, sortOrder := some SortDir.desc } bs =
        jsSort (sortCmp SortKey.reviews (-1))
          (applyFilters
            { fs with sortBy := some SortKey.reviews, sortOrder := some SortDir.desc } bs) := rfl
    rw [heq]
    refine (jsSort_sorted _ ?_ ?_ _).imp ?_
    · intro a b
      simp only [sortCmp]
      rcases le_total a.totalReviews b.totalReviews with h | h
      · left
        have h' : ((a.totalReviews : ℤ) : ℚ) ≤ ((b.totalReviews : ℤ) : ℚ) := by
          exact_mod_cast h
        push_cast
        linarith
      · right
        have h' : ((b.totalReviews : ℤ) : ℚ) ≤ ((a.totalReviews : ℤ) : ℚ) := by
          exact_mod_cast h
        push_cast
        linarith
    · intro a b c h1 h2
      simp only [sortCmp] at h1 h2 ⊢
      push_cast at h1 h2 ⊢
      linarith
    · intro a b hab
      simp only [sortCmp] at hab
      have h' : ((a.totalReviews : ℤ) : ℚ) ≤ ((b.totalReviews : ℤ) : ℚ) := by
        push_cast at hab
        linarith
      exact_mod_cast h'
  · intro fs bs
    have heq : filterBusinesses
        { fs with sortBy := some SortKey.name, sortOrder := some SortDir.asc } bs =
        jsSort (sortCmp SortKey.name 1)
          (applyFilters
            { fs with sortBy := some SortKey.name, sortOrder := some SortDir.asc } bs) := rfl
    rw [heq]
    refine (jsSort_sorted _ ?_ ?_ _).imp (fun hab => by simpa [sortCmp] using hab)
    · intro a b
      simp only [sortCmp, mul_one, hloc]
      exact le_total a.name b.name
    · intro a b c h1 h2
      simp only [sortCmp, mul_one, hloc] at h1 h2 ⊢
      exact le_trans h1 h2
  · intro fs bs
    have heq : filterBusinesses
        { fs with sortBy := some SortKey.price, sortOrder := some SortDir.asc } bs =
        jsSort (sortCmp SortKey.price 1)
          (applyFilters
            { fs with sortBy := some SortKey.price, sortOrder := some SortDir.asc } bs) := rfl
    rw [heq]
    refine (jsSort_sorted _ ?_ ?_ _).imp ?_
    · intro a b
      simp only [sortCmp, mul_one]
      rcases le_total a.priceLevel b.priceLevel with h | h
      · left; exact_mod_cast sub_nonpos.mpr h
      · right; exact_mod_cast sub_nonpos.mpr h
    · intro a b c h1 h2
      simp only [sortCmp, mul_one] at h1 h2 ⊢
      push_cast at h1 h2 ⊢
      linarith
    · intro a b hab
      simp only [sortCmp, mul_one] at hab
      exact sub_nonpos.mp (by exact_mod_cast hab)
  · intro fs bs
    unfold filterBusinesses
    dsimp only
    cases hsb : fs.sortBy with
    | none => rfl
    | some key => rfl

-- ===========================================================================
-- C5 — `exportReport(·, 'json')` round trip
-- ===========================================================================

/-- Field access on a parsed JSON object. -/
def getFieldJ (k : String) : JVal → Option JVal
  | JVal.obj l => l.lookup k
  | _ => none

/-- `jsonRoundTrip` is the identity on finite number leaves. -/
theorem jsonRoundTrip_fin (q : ℚ) :
    jsonRoundTrip (JVal.num (JsNum.fin q)) = JVal.num (JsNum.fin q) := rfl

/-- `jsonRoundTrip` is the identity on string leaves. -/
theorem jsonRoundTrip_str (s : String) : jsonRoundTrip (JVal.str s) = JVal.str s := rfl

/-- `jsonRoundTrip` on arrays. -/
theorem jsonRoundTrip_arr (l : List JVal) :
    jsonRoundTrip (JVal.arr l) = JVal.arr (jsonRoundTripList l) := rfl

/-- `jsonRoundTrip` on objects. -/
theorem jsonRoundTrip_obj (l : List (String × JVal)) :
    jsonRoundTrip (JVal.obj l) = JVal.obj (jsonRoundTripPairs l) := rfl

/-- Base case for object fields. -/
theorem jsonRoundTripPairs_nil : jsonRoundTripPairs [] = [] := rfl

/-- Unfolding lemma for object fields. -/
theorem jsonRoundTripPairs_cons (k : String) (v : JVal) (rest : List (String × JVal)) :
    jsonRoundTripPairs ((k, v) :: rest) = (k, jsonRoundTrip v) :: jsonRoundTripPairs rest := rfl

/-- Unfolding lemma for array elements. -/
theorem jsonRoundTripList_cons (v : JVal) (rest : List JVal) :
    jsonRoundTripList (v :: rest) = jsonRoundTrip v :: jsonRoundTripList rest := rfl

/-- An elementwise-fixed encoded array is fixed by the round trip. -/
theorem jsonRoundTripList_map {α : Type} (enc : α → JVal) (l : List α)
    (h : ∀ x ∈ l, jsonRoundTrip (enc x) = enc x) :
    jsonRoundTripList (l.map enc) = l.map enc := by
  induction l with
  | nil => rfl
  | cons x xs ih =>
    rw [List.map_cons, jsonRoundTripList_cons, h x (List.mem_cons_self _ _),
        ih (fun y hy => h y (List.mem_cons_of_mem _ hy))]

/-- The encoded `hours` object survives the round trip (its leaves are
strings and `null`s). -/
theorem hoursToJVal_roundTrip (h : List (String × Option OpenClose)) :
    jsonRoundTrip (hoursToJVal h) = hoursToJVal h := by
  unfold hoursToJVal
  rw [jsonRoundTrip_obj]
  congr 1
  induction h with
  | nil => rfl
  | cons p rest ih =>
    rw [List.map_cons, jsonRoundTripPairs_cons, ih]
    cases p.2 with
    | none => rfl
    | some oc => rfl

/-- An encoded `Business` survives the round trip: every leaf is a string,
a boolean or a finite number. -/
theorem businessToJVal_roundTrip (b : Business) :
    jsonRoundTrip (businessToJVal b) = businessToJVal b := by
  unfold businessToJVal
  rw [jsonRoundTrip_obj]
  simp only [jsonRoundTripPairs_cons, jsonRoundTrip_fin, jsonRoundTrip_str,
    jsonRoundTrip_arr, jsonRoundTripPairs_nil, jnum, jint]
  rw [hoursToJVal_roundTrip, jsonRoundTripList_map JVal.str b.tags (fun x _ => rfl)]

/-- An encoded `Review` survives the round trip. -/
theorem reviewToJVal_roundTrip (r : Review) :
    jsonRoundTrip (reviewToJVal r) = reviewToJVal r := rfl

/-- Any `ReportData` whose three computed averages are finite is fixed by
the stringify/parse round trip. -/
theorem reportToJVal_roundTrip_of_fin (d : ReportData)
    (h1 : ∃ q, d.averageRating = JsNum.fin q)
    (h2 : ∃ q, d.dealStats.avgDiscountPercent = JsNum.fin q)
    (h3 : ∀ c ∈ d.categoryBreakdown, ∃ q, c.avgRating = JsNum.fin q) :
    jsonRoundTrip (reportToJVal d) = reportToJVal d := by
  obtain ⟨q1, hq1⟩ := h1
  obtain ⟨q2, hq2⟩ := h2
  unfold reportToJVal
  rw [jsonRoundTrip_obj]
  simp only [jsonRoundTripPairs_cons, jsonRoundTrip_fin, jsonRoundTrip_str,
    jsonRoundTrip_arr, jsonRoundTrip_obj, jsonRoundTripPairs_nil, jnum, jint, hq1, hq2]
  rw [jsonRoundTripList_map _ d.categoryBreakdown (fun c hc => ?_),
      jsonRoundTripList_map _ d.ratingDistribution (fun rb _ => rfl),
      jsonRoundTripList_map businessToJVal d.topRatedBusinesses
        (fun b _ => businessToJVal_roundTrip b),
      jsonRoundTripList_map businessToJVal d.mostReviewedBusinesses
        (fun b _ => businessToJVal_roundTrip b),
      jsonRoundTripList_map reviewToJVal d.recentReviews
        (fun r _ => reviewToJVal_roundTrip r)]
  obtain ⟨q, hq⟩ := h3 c hc
  rw [jsonRoundTrip_obj]
  simp only [jsonRoundTripPairs_cons, jsonRoundTrip_fin, jsonRoundTrip_str,
    jsonRoundTripPairs_nil, jnum, jint, hq]

/-- `jsDiv` by a non-zero denominator is an ordinary finite division. -/
theorem jsDiv_of_ne {a b : ℚ} (h : b ≠ 0) : JsNum.jsDiv a b = JsNum.fin (a / b) := by
  simp [JsNum.jsDiv, h]

/-- A successful association-list lookup locates a stored pair. -/
theorem lookup_mem {m : List (String × CatAcc)} {k : String} {v : CatAcc}
    (h : m.lookup k = some v) : (k, v) ∈ m := by
  induction m with
  | nil => simp [List.lookup] at h
  | cons p rest ih =>
    rcases p with ⟨k', v'⟩
    by_cases hk : k = k'
    · subst hk
      simp [List.lookup] at h
      subst h
      exact List.mem_cons_self _ _
    · have hb : (k == k') = false := beq_false_of_ne hk
      simp [List.lookup, hb] at h
      exact List.mem_cons_of_mem _ (ih h)

/-- `Map.prototype.set` only creates the given pair or keeps old ones. -/
theorem mapSet_mem (m : List (String × CatAcc)) (k : String) (v : CatAcc) :
    ∀ p ∈ mapSet m k v, p ∈ m ∨ p = (k, v) := by
  induction m with
  | nil => intro p hp; right; simpa [mapSet] using hp
  | cons q rest ih =>
    intro p hp
    rcases q with ⟨k', v'⟩
    by_cases hk : k' = k
    · rw [mapSet, if_pos hk] at hp
      rcases List.mem_cons.mp hp with he | he
      · right; exact he
      · left; exact List.mem_cons_of_mem _ he
    · rw [mapSet, if_neg hk] at hp
      rcases List.mem_cons.mp hp with he | he
      · left; exact he ▸ List.mem_cons_self _ _
      · rcases ih p he with h | h
        · left; exact List.mem_cons_of_mem _ h
        · right; exact h

/-- Every entry of the `categoryMap` fold has a positive count (each entry
is created with count 1 and only ever incremented). -/
theorem categoryMapOf_count_pos (bs : List Business) :
    ∀ p ∈ categoryMapOf bs, 1 ≤ p.2.count := by
  unfold categoryMapOf
  suffices h : ∀ (bs : List Business) (m : List (String × CatAcc)),
      (∀ p ∈ m, 1 ≤ p.2.count) →
      ∀ p ∈ bs.foldl
          (fun m b =>
            let cat :=
              (((CATEGORIES.find? (fun c => c.id == b.category)).map Category.name).getD
                b.category)
            let existing := (m.lookup cat).getD ⟨0, 0⟩
            mapSet m cat ⟨existing.count + 1, existing.totalRating + b.averageRating⟩)
          m, 1 ≤ p.2.count by
    exact h bs [] (by intro p hp; cases hp)
  intro bs
  induction bs with
  | nil => intro m hm p hp; exact hm p hp
  | cons b rest ih =>
    intro m hm p hp
    rw [List.foldl_cons] at hp
    refine ih _ ?_ p hp
    intro q hq
    dsimp only at hq
    rcases mapSet_mem _ _ _ q hq with h | h
    · exact hm q h
    · subst h
      dsimp only
      cases hl : (m.lookup
          (((CATEGORIES.find? (fun c => c.id == b.category)).map Category.name).getD
            b.category)) with
      | none => simp
      | some v =>
        have := hm _ (lookup_mem hl)
        dsimp only [Option.getD] at this ⊢
        omega

/-- C5 (counterexample to the claim as stated): on a store with no deals
and no businesses, `generateReport` contains `NaN`s, `JSON.stringify`
serializes them as `null`, and the parsed report is no longer structurally
equal to the original. -/
theorem exportReport_roundtrip_counterexample :
    jsonRoundTrip (reportToJVal (generateReport noFilters stEmpty)) ≠
      reportToJVal (generateReport noFilters stEmpty) := by
  intro h
  have h2 := congrArg (getFieldJ "averageRating") h
  have h3 : getFieldJ "averageRating"
      (jsonRoundTrip (reportToJVal (generateReport noFilters stEmpty))) =
      some JVal.null := rfl
  have h4 : getFieldJ "averageRating"
      (reportToJVal (generateReport noFilters stEmpty)) =
      some (JVal.num JsNum.nan) := rfl
  rw [h3, h4] at h2
  simp at h2

/-- C5 (amended): whenever the filtered business list and the deals list
are both non-empty, no `NaN` arises and `JSON.parse` of
`exportReport(data, 'json')` is structurally identical to the original
`ReportData`. -/
theorem exportReport_roundtrip_amended :
    ∀ (f : ReportFilters) (st : StoreState),
      (reportFiltered f st.businesses st.reviews).1 ≠ [] → st.deals ≠ [] →
      jsonRoundTrip (reportToJVal (generateReport f st)) =
        reportToJVal (generateReport f st) := by
  intro f st hb hd
  apply reportToJVal_roundTrip_of_fin
  · have hne : (((reportFiltered f st.businesses st.reviews).1.length : ℕ) : ℚ) ≠ 0 := by
      intro hc
      apply hb
      exact List.length_eq_zero.mp (by exact_mod_cast hc)
    unfold generateReport
    dsimp only
    rw [jsDiv_of_ne hne]
    exact ⟨_, rfl⟩
  · have hne : ((st.deals.length : ℕ) : ℚ) ≠ 0 := by
      intro hc
      apply hd
      exact List.length_eq_zero.mp (by exact_mod_cast hc)
    unfold generateReport
    dsimp only
    rw [jsDiv_of_ne hne]
    exact ⟨_, rfl⟩
  · intro cstat hc
    unfold generateReport at hc
    dsimp only at hc
    obtain ⟨p, hp, he⟩ := List.mem_map.mp hc
    have hcount := categoryMapOf_count_pos _ p hp
    have hne : ((p.2.count : ℤ) : ℚ) ≠ 0 := by
      intro hc0
      have : p.2.count = 0 := by exact_mod_cast hc0
      omega
    subst he
    dsimp only
    rw [jsDiv_of_ne hne]
    exact ⟨_, rfl⟩

/-- Witness for C5's amended statement at the non-empty sample store. -/
theorem exportReport_roundtrip_amended_witness :
    jsonRoundTrip (reportToJVal (generateReport noFilters stSample)) =
      reportToJVal (generateReport noFilters stSample) :=
  exportReport_roundtrip_amended noFilters stSample (by decide) (by decide)
